import Mathlib

/-!
Shallow embedding of the golf booking queue processor (process-queue.ts) and
proofs about it.  Pure functions of the source are translated directly; the
stateful retry loops are embedded as functions of an observation oracle
(one observation per loop iteration), and the per-request browser interaction
is embedded as an explicit environment record.  JavaScript strings are Lean
`String`s compared by code unit (the source only compares ASCII ISO dates and
HH:MM times, where localeCompare and the built-in comparison operators agree
with code-unit order).
-/

namespace Golf

/-! ### JavaScript string comparison

The source compares ISO date strings with the JS `<=` / `>=` operators and
sorts with `localeCompare`.  On the ASCII strings involved both agree with
code-unit lexicographic order, which `strLtB` implements. -/

/-- Lexicographic strict comparison of character lists by code point,
modelling the JS `<` operator on strings. -/
def strLtB : List Char → List Char → Bool
  | [], [] => false
  | [], _ :: _ => true
  | _ :: _, [] => false
  | a :: as, b :: bs =>
    if a.toNat < b.toNat then true
    else if b.toNat < a.toNat then false
    else strLtB as bs

/-- JS `a < b` on strings. -/
def jsLt (a b : String) : Bool := strLtB a.data b.data

/-- JS `a <= b` on strings. -/
def jsLe (a b : String) : Bool := !(jsLt b a)

/-- Does `hay` start with `needle` (list version)? -/
def startsWithList : List Char → List Char → Bool
  | [], _ => true
  | _ :: _, [] => false
  | a :: as, b :: bs => a == b && startsWithList as bs

/-- Does the haystack contain `needle` as a contiguous run (list version)? -/
def containsList (needle : List Char) : List Char → Bool
  | [] => needle.isEmpty
  | b :: bs => startsWithList needle (b :: bs) || containsList needle bs

/-- JS `s.includes(pattern)`. -/
def includesStr (s pattern : String) : Bool := containsList pattern.data s.data

/-! ### Calendar arithmetic

The source does date arithmetic with `new Date(isoString)` (parsed at UTC
midnight), `setDate(getDate() + n)` and `toISOString().split("T")[0]`, which
is exactly adding `n` calendar days in the proleptic Gregorian calendar.
`daysFromCivil` / `civilFromDays` are the standard civil-calendar conversions
(days counted from 0000-03-01); an invalid date string makes the JS
`toISOString` throw, modelled by `Option`. -/

def isLeapYear (y : Nat) : Bool := (y % 4 == 0 && y % 100 != 0) || y % 400 == 0

def daysInMonth (y m : Nat) : Nat :=
  if m = 2 then (if isLeapYear y then 29 else 28)
  else if m = 4 ∨ m = 6 ∨ m = 9 ∨ m = 11 then 30
  else 31

def daysFromCivil (y m d : Nat) : Nat :=
  let y2 := if m ≤ 2 then y - 1 else y
  let era := y2 / 400
  let yoe := y2 % 400
  let mp := (m + 9) % 12
  let doy := (153 * mp + 2) / 5 + d - 1
  let doe := yoe * 365 + yoe / 4 - yoe / 100 + doy
  era * 146097 + doe

def civilFromDays (z : Nat) : Nat × Nat × Nat :=
  let era := z / 146097
  let doe := z % 146097
  let yoe := (doe - doe / 1460 + doe / 36524 - doe / 146096) / 365
  let y2 := yoe + era * 400
  let doy := doe - (365 * yoe + yoe / 4 - yoe / 100)
  let mp := (5 * doy + 2) / 153
  let d := doy - (153 * mp + 2) / 5 + 1
  let m := if mp < 10 then mp + 3 else mp - 9
  (if m ≤ 2 then y2 + 1 else y2, m, d)

def digitVal (c : Char) : Option Nat := if c.isDigit then some (c.toNat - 48) else none

/-- Strict parser for the canonical `YYYY-MM-DD` form (the only form the
queue ever contains; JS `new Date` accepts it as a UTC date).  Rejects
calendar-invalid dates, for which JS would produce an Invalid Date. -/
def parseISODate (s : String) : Option (Nat × Nat × Nat) :=
  match s.data with
  | [c1, c2, c3, c4, s1, c5, c6, s2, c7, c8] =>
    if s1 = '-' ∧ s2 = '-' then
      match digitVal c1, digitVal c2, digitVal c3, digitVal c4,
            digitVal c5, digitVal c6, digitVal c7, digitVal c8 with
      | some a, some b, some c, some d, some e, some f, some g, some h =>
        let y := 1000 * a + 100 * b + 10 * c + d
        let m := 10 * e + f
        let day := 10 * g + h
        if 1 ≤ y ∧ 1 ≤ m ∧ m ≤ 12 ∧ 1 ≤ day ∧ day ≤ daysInMonth y m then
          some (y, m, day)
        else none
      | _, _, _, _, _, _, _, _ => none
    else none
  | _ => none

def pad2 (n : Nat) : String := if n < 10 then "0" ++ toString n else toString n

def pad4 (n : Nat) : String :=
  if n < 10 then "000" ++ toString n
  else if n < 100 then "00" ++ toString n
  else if n < 1000 then "0" ++ toString n
  else toString n

/-- Model of `new Date(dateStr)`, `setDate(getDate() + n)`,
`toISOString().split("T")[0]` (process-queue.ts:271-277, 296-301). -/
def addDaysToISODate (dateStr : String) (n : Nat) : Option String :=
  match parseISODate dateStr with
  | none => none
  | some (y, m, d) =>
    let c := civilFromDays (daysFromCivil y m d + n)
    some (pad4 c.1 ++ "-" ++ pad2 c.2.1 ++ "-" ++ pad2 c.2.2)

/-! ### Data model (process-queue.ts:10-34) -/

inductive RequestStatus
  | pending
  | success
  | failed
  | error
deriving DecidableEq

structure TimeRange where
  start : String
  «end» : String
deriving DecidableEq

structure BookingRequest where
  id : String
  requestDate : String
  playDate : String
  timeRange : TimeRange
  status : RequestStatus
  requestedBy : String
  processedDate : Option String := none
  bookedTime : Option String := none
  confirmationNumber : Option String := none
  failureReason : Option String := none
deriving DecidableEq

structure QueueData where
  bookingRequests : List BookingRequest
  processedRequests : List BookingRequest
deriving DecidableEq

structure Slot where
  time : String
  id : String
deriving DecidableEq

/-! ### Eligibility filter (process-queue.ts:269-288) -/

/-- The filter callback of `filterTodayRequests` (process-queue.ts:279-285).
`thirtyDaysString` is today + 21 days (the variable keeps its historical
name in the source even though the deployed horizon is 21), `threeDaysString`
is today + 3 days. -/
def eligibleRequest (today thirtyDaysString threeDaysString : String)
    (request : BookingRequest) : Bool :=
  if request.status ≠ RequestStatus.pending then false
  else
    let isExactly30Days := request.playDate == thirtyDaysString
    let isWithin3Days := jsLe today request.playDate && jsLe request.playDate threeDaysString
    isExactly30Days || isWithin3Days

/-- Stable insertion step for descending sort on a string key: an element
moves past `x` only when `x`'s key is strictly greater, so equal keys keep
their original relative order. -/
def insertDescByKey (key : α → String) (a : α) : List α → List α
  | [] => [a]
  | x :: xs => if jsLt (key a) (key x) then x :: insertDescByKey key a xs else a :: x :: xs

/-- Stable descending sort by string key, modelling the JS stable
`Array.prototype.sort` with comparator `(a, b) => key(b).localeCompare(key(a))`
(process-queue.ts:287). -/
def sortDescByKey (key : α → String) (l : List α) : List α :=
  l.foldr (insertDescByKey key) []

/-- Model of `filterTodayRequests` (process-queue.ts:269-288).  The `today`
argument models the result of `getTodayDate()`; `none` models the exception
JS throws (via `toISOString` on an Invalid Date) when `today` is not a valid
date string. -/
def filterTodayRequests (today : String) (queueData : QueueData) :
    Option (List BookingRequest) :=
  match addDaysToISODate today 21, addDaysToISODate today 3 with
  | some thirtyDaysString, some threeDaysString =>
    let filteredRequests := queueData.bookingRequests.filter
      (eligibleRequest today thirtyDaysString threeDaysString)
    some (sortDescByKey (fun r => r.playDate) filteredRequests)
  | _, _ => none

/-! ### Secondary-channel availability check (process-queue.ts:527-568) -/

inductive ApiAvailability
  | available
  | allBooked
  | notReleased
deriving DecidableEq

/-- One entry of the intercepted `data.teeSheet` array.  `teeTime` is
`none` for a null/undefined field (the source also skips the empty string,
which is falsy in JS). -/
structure ApiSlot where
  teeTime : Option String
  availPlayers : Int
deriving DecidableEq

structure ApiResponse where
  teeSheet : List ApiSlot
deriving DecidableEq

/-- Model of the local `parseTime` (process-queue.ts:531-534): split on ":",
convert the first two pieces with `Number`, return hour + minute/60.  A
missing or non-numeric piece makes the JS result NaN, modelled as `none`
(every comparison with NaN is false). -/
def parseTime (timeStr : String) : Option ℚ :=
  match timeStr.splitOn ":" with
  | hourStr :: minuteStr :: _ =>
    match hourStr.toNat?, minuteStr.toNat? with
    | some hour, some minute => some ((hour : ℚ) + (minute : ℚ) / 60)
    | _, _ => none
  | _ => none

/-- The in-window test of the `timesInRange` filter (process-queue.ts:539-547):
slots without a usable `teeTime` are skipped, otherwise the parsed time must
lie inside `[start, end]`, endpoints included. -/
def slotInRange (timeRange : TimeRange) (slot : ApiSlot) : Bool :=
  match slot.teeTime with
  | none => false
  | some t =>
    if t = "" then false
    else
      match parseTime timeRange.start, parseTime timeRange.«end», parseTime t with
      | some startNum, some endNum, some slotTime =>
        decide (startNum ≤ slotTime) && decide (slotTime ≤ endNum)
      | _, _, _ => false

/-- Model of `checkApiForAvailability` (process-queue.ts:527-568).  Note the
source returns "all-booked" both when every in-window slot has zero capacity
and in the final partial-capacity branch. -/
def checkApiForAvailability (timeRange : TimeRange) (apiResponse : ApiResponse) :
    ApiAvailability :=
  let timesInRange := apiResponse.teeSheet.filter (slotInRange timeRange)
  if timesInRange.isEmpty then ApiAvailability.notReleased
  else
    let availableTimes := timesInRange.filter (fun slot => slot.availPlayers == 4)
    if !availableTimes.isEmpty then ApiAvailability.available
    else
      let allBooked := timesInRange.all (fun slot => slot.availPlayers == 0)
      if allBooked then ApiAvailability.allBooked
      else ApiAvailability.allBooked

/-! ### Page state classifier (process-queue.ts:415-468) -/

inductive PageState
  | ready
  | tooEarly
  | noResults
  | loading
deriving DecidableEq

/-- A readable observation of the booking frame: the visible text and
whether any slot time element is present. -/
structure PageSnapshot where
  pageText : String
  hasTimeSlots : Bool
deriving DecidableEq

def monthName : Nat → String
  | 1 => "January"
  | 2 => "February"
  | 3 => "March"
  | 4 => "April"
  | 5 => "May"
  | 6 => "June"
  | 7 => "July"
  | 8 => "August"
  | 9 => "September"
  | 10 => "October"
  | 11 => "November"
  | 12 => "December"
  | _ => ""

/-- Model of `new Date(playDate).toLocaleString("en-US", {month: "long",
day: "numeric", year: "numeric"})` (process-queue.ts:435-439), assuming a
UTC host (the GitHub runner), under which the rendered date equals the
parsed UTC date.  JS renders an unparsable date as "Invalid Date". -/
def datePatternOf (playDate : String) : String :=
  match parseISODate playDate with
  | some (y, m, d) => monthName m ++ " " ++ toString d ++ ", " ++ toString y
  | none => "Invalid Date"

def tooEarlyPattern (playDate : String) : String :=
  "will become available on " ++ datePatternOf playDate ++ " at 7:00 AM"

def noTimesMessage : String := "Your search returned no times to be displayed"

/-- Model of `checkPageState` (process-queue.ts:415-468).  The rate-limit
check at the top only logs; the catch-all error path (an exception while
observing) is outside the pure snapshot model. -/
def checkPageState (snapshot : PageSnapshot) (playDate : String) : PageState :=
  if includesStr snapshot.pageText (tooEarlyPattern playDate) then PageState.tooEarly
  else if includesStr snapshot.pageText noTimesMessage then PageState.noResults
  else if snapshot.hasTimeSlots then PageState.ready
  else PageState.loading

/-! ### Far-horizon retry policy (process-queue.ts:471-524)

The loop is embedded over an observation oracle: `observe n` is the pair of
the page state `checkPageState` reports and the slot list `findAvailableSlots`
would discover at loop counter value `n`.  `fuel` is the number of remaining
iterations, `maxRetries + 1 - attempt`; the source's ready-with-zero-slots
branch runs `attempt += 2` followed by the loop increment, consuming three
attempt counts, and performs `frame.goto(frame.url())` — a reload — which the
`reloads` counter records (the too-early branch also reloads). -/

structure FarHorizonResult where
  slots : List Slot
  reloads : Nat
deriving DecidableEq

def find30Go (observe : Nat → PageState × List Slot) :
    Nat → Nat → Nat → FarHorizonResult
  | 0, _, reloads => ⟨[], reloads⟩
  | fuel + 1, attempt, reloads =>
    match observe attempt with
    | (PageState.ready, slots) =>
      if slots.isEmpty then
        match fuel with
        | 0 => ⟨[], reloads + 1⟩
        | 1 => ⟨[], reloads + 1⟩
        | f + 2 => find30Go observe f (attempt + 3) (reloads + 1)
      else ⟨slots, reloads⟩
    | (PageState.tooEarly, _) => find30Go observe fuel (attempt + 1) (reloads + 1)
    | (PageState.noResults, _) => find30Go observe fuel (attempt + 1) reloads
    | (PageState.loading, _) => find30Go observe fuel (attempt + 1) reloads

/-- Model of `findAvailableSlots30Day` (process-queue.ts:471-524). -/
def findAvailableSlots30Day (observe : Nat → PageState × List Slot)
    (maxRetries : Nat := 30) : FarHorizonResult :=
  find30Go observe (maxRetries + 1) 0 0

/-! ### Near-horizon retry policy (process-queue.ts:622-697) -/

inductive APIResult
  | available
  | allBooked
  | notReleased
  | timeout
deriving DecidableEq

/-- One observation of a near-horizon cycle: the captured secondary-channel
result, the page state, and the slots discovery would return. -/
structure NearObs where
  api : APIResult
  state : PageState
  slots : List Slot
deriving DecidableEq

inductive NearStop
  | gotSlots
  | apiAllBooked
  | exhausted
deriving DecidableEq

/-- Result of the near-horizon loop, instrumented with the attempt index at
which it returned and why (observable in the source through its log lines
and return sites). -/
structure NearHorizonResult where
  slots : List Slot
  stoppedAt : Nat
  reason : NearStop
deriving DecidableEq

def find3Go (observe : Nat → NearObs) : Nat → Nat → NearHorizonResult
  | 0, attempt => ⟨[], attempt, NearStop.exhausted⟩
  | fuel + 1, attempt =>
    let o := observe attempt
    if o.api = APIResult.allBooked ∧ attempt > 10 then
      ⟨[], attempt, NearStop.apiAllBooked⟩
    else
      match o.state with
      | PageState.ready =>
        if o.slots.isEmpty then find3Go observe fuel (attempt + 1)
        else ⟨o.slots, attempt, NearStop.gotSlots⟩
      | _ => find3Go observe fuel (attempt + 1)

/-- Model of `findAvailableSlots3Day` (process-queue.ts:622-697): each
iteration navigates afresh and captures the secondary signal; the early stop
fires only when the signal is all-booked AND `attempt > 10`; the too-early,
no-results and loading branches all just delay and continue. -/
def findAvailableSlots3Day (observe : Nat → NearObs) (maxRetries : Nat := 30) :
    NearHorizonResult :=
  find3Go observe (maxRetries + 1) 0

/-! ### Acquisition attempt protocol (process-queue.ts:881-944, 1035-1063) -/

inductive BookResult
  | success
  | locked
  | error
deriving DecidableEq

def lockedMessage : String := "Time slot locked by another user"

def bookingFailedMessage : String := "Failed to complete booking"

/-- The loop body of `attemptBooking` (process-queue.ts:1042-1060).
`outcome` is the oracle for `bookSlot`'s result on each candidate;
`lastError` is the running failure message. -/
def attemptBookingGo (outcome : Slot → BookResult) :
    List Slot → String → Option Slot × String
  | [], lastError => (none, lastError)
  | slot :: rest, lastError =>
    match outcome slot with
    | BookResult.success => (some slot, lastError)
    | BookResult.locked => attemptBookingGo outcome rest lockedMessage
    | BookResult.error => attemptBookingGo outcome rest bookingFailedMessage

/-- Model of `attemptBooking` (process-queue.ts:1035-1063). -/
def attemptBooking (outcome : Slot → BookResult) (slots : List Slot) :
    Option Slot × String :=
  attemptBookingGo outcome slots "Unknown error"

/-- The sequence of candidates the protocol actually invokes `bookSlot` on:
every candidate up to and including the first success. -/
def attemptedSlots (outcome : Slot → BookResult) : List Slot → List Slot
  | [] => []
  | slot :: rest =>
    slot ::
      (match outcome slot with
       | BookResult.success => []
       | _ => attemptedSlots outcome rest)

/-- The failure message the protocol reports when no candidate succeeds:
the message of the last attempted candidate ("Unknown error" for an empty
candidate list). -/
def lastFailureMessage (outcome : Slot → BookResult) (slots : List Slot) : String :=
  match slots.getLast? with
  | none => "Unknown error"
  | some slot =>
    match outcome slot with
    | BookResult.locked => lockedMessage
    | _ => bookingFailedMessage

/-! ### Per-request processing (process-queue.ts:1066-1267) -/

/-- The environment one request's processing interacts with: `throws` models
a collaborator exception caught by the per-request try/catch; `nowIso` the
timestamp written into `processedDate`; `dateSelected` the result of
`confirmDateSelection`; `slots` the list the retry policy returns; `outcome`
the `bookSlot` results. -/
structure ProcEnv where
  throws : Option String
  nowIso : String
  dateSelected : Bool
  slots : List Slot
  outcome : Slot → BookResult

/-- Model of `process30DayRequest` (process-queue.ts:1066-1163): the returned
record is the request as mutated by the handler. -/
def process30DayRequest (env : ProcEnv) (request : BookingRequest) : BookingRequest :=
  match env.throws with
  | some msg =>
    { request with
        status := RequestStatus.error
        processedDate := some env.nowIso
        failureReason := some msg }
  | none =>
    if !env.dateSelected then
      { request with
          status := RequestStatus.failed
          processedDate := some env.nowIso
          failureReason := some "Could not select date" }
    else if env.slots.isEmpty then
      { request with
          status := RequestStatus.failed
          processedDate := some env.nowIso
          failureReason := some "No available times" }
    else
      match attemptBooking env.outcome env.slots with
      | (some bookedSlot, _) =>
        { request with
            status := RequestStatus.success
            processedDate := some env.nowIso
            bookedTime := some bookedSlot.time }
      | (none, lastError) =>
        { request with
            status := RequestStatus.failed
            processedDate := some env.nowIso
            failureReason := some lastError }

/-- Model of `process3DayRequest` (process-queue.ts:1166-1246); an empty
`env.slots` also covers the null-frame failure branch of the source. -/
def process3DayRequest (env : ProcEnv) (request : BookingRequest) : BookingRequest :=
  match env.throws with
  | some msg =>
    { request with
        status := RequestStatus.error
        processedDate := some env.nowIso
        failureReason := some msg }
  | none =>
    if env.slots.isEmpty then
      { request with
          status := RequestStatus.failed
          processedDate := some env.nowIso
          failureReason := some "No available times" }
    else
      match attemptBooking env.outcome env.slots with
      | (some bookedSlot, _) =>
        { request with
            status := RequestStatus.success
            processedDate := some env.nowIso
            bookedTime := some bookedSlot.time }
      | (none, lastError) =>
        { request with
            status := RequestStatus.failed
            processedDate := some env.nowIso
            failureReason := some lastError }

inductive RetryPolicy
  | farHorizon
  | nearHorizon
deriving DecidableEq

/-- Model of `processRequest` (process-queue.ts:1249-1267): the dispatch is
`const is3DayBooking = !isFirstRequest` (the playDate-based check is
commented out in the source).  The returned policy tag records which handler
ran, observable in the source through its log lines. -/
def processRequest (env : ProcEnv) (isFirstRequest : Bool)
    (request : BookingRequest) : RetryPolicy × BookingRequest :=
  let is3DayBooking := !isFirstRequest
  if is3DayBooking then (RetryPolicy.nearHorizon, process3DayRequest env request)
  else (RetryPolicy.farHorizon, process30DayRequest env request)

/-- Model of `main`'s queue handling (process-queue.ts:1270-1360): select
today's requests; if none, return without touching the queue; otherwise
process each selected request in sorted order (the first sorted request with
`isFirstRequest = true`), mutating the request objects in place, then keep
only the still-pending entries of `bookingRequests` and prepend the
processed requests to `processedRequests`.  Requests are identified by their
position in `bookingRequests`; `env j` is the processing environment of the
request at position `j`. -/
def mainRun (today : String) (env : Nat → ProcEnv) (queueData : QueueData) :
    Option QueueData :=
  match addDaysToISODate today 21, addDaysToISODate today 3 with
  | some thirtyDaysString, some threeDaysString =>
    let indexed := queueData.bookingRequests.enum
    let eligIndexed := indexed.filter
      (fun p => eligibleRequest today thirtyDaysString threeDaysString p.2)
    match sortDescByKey (fun p => p.2.playDate) eligIndexed with
    | [] => some queueData
    | first :: rest =>
      let sortedSel := first :: rest
      let processedOf : Nat → BookingRequest → BookingRequest :=
        fun j r => (processRequest (env j) (j == first.1) r).2
      let mutatedRequests := indexed.map (fun p =>
        if eligibleRequest today thirtyDaysString threeDaysString p.2 then
          processedOf p.1 p.2
        else p.2)
      let processedSel := sortedSel.map (fun p => processedOf p.1 p.2)
      some
        { bookingRequests :=
            mutatedRequests.filter (fun r => r.status == RequestStatus.pending)
          processedRequests := processedSel ++ queueData.processedRequests }
  | _, _ => none

/-! ### Release-instant wait (process-queue.ts:101-253)

`sleepUntilTimeInZone` is a `new Promise` executor.  The model abstracts the
two delay computations as oracles: `primaryDelay` is the result of
`calculateDelay` (its catch block calls `reject(error)` and returns the -1
sentinel), `fallbackDelay` the result of the fallback same-local-day
computation.  A promise settles exactly once — the first `resolve`/`reject`
wins — which `settleOnce` encodes; the model returns the final settled state
after replaying the executor's settle calls in program order. -/

inductive PromiseSettle
  | resolvedAfter (delayMs : Nat)
  | rejectedWith (message : String)
deriving DecidableEq

/-- First settlement wins: a later `resolve` or `reject` on an already
settled promise is a no-op. -/
def settleOnce (state : Option PromiseSettle) (event : PromiseSettle) :
    Option PromiseSettle :=
  match state with
  | some s => some s
  | none => some event

/-- Model of the settled outcome of `sleepUntilTimeInZone`
(process-queue.ts:101-253).  Primary success resolves (immediately or after
the timer).  Primary failure fires `reject(error)` inside `calculateDelay`
before the fallback runs; the fallback then either computes a delay (whose
eventual `resolve()` hits an already-settled promise) or throws (whose
`reject(fallbackError)` likewise hits an already-settled promise). -/
def sleepUntilTimeInZone (primaryDelay fallbackDelay : Except String Nat) :
    Option PromiseSettle :=
  match primaryDelay with
  | Except.ok delay => settleOnce none (PromiseSettle.resolvedAfter delay)
  | Except.error e =>
    let st := settleOnce none (PromiseSettle.rejectedWith e)
    match fallbackDelay with
    | Except.error e2 => settleOnce st (PromiseSettle.rejectedWith e2)
    | Except.ok delay2 => settleOnce st (PromiseSettle.resolvedAfter delay2)

end Golf

namespace Golf


/-! ### Concrete inputs used by witnesses and counterexamples -/

def mkRequest (i pd : String) (st : RequestStatus) : BookingRequest :=
  { id := i
    requestDate := "2025-06-10T12:00:00Z"
    playDate := pd
    timeRange := { start := "09:00", «end» := "11:00" }
    status := st
    requestedBy := "tester" }

/-- The queue of the specification's eligibility example: offsets 1, 3, 5 and
30 days from 2025-06-10, plus one non-pending request. -/
def demoQueue30 : QueueData :=
  { bookingRequests :=
      [mkRequest "1" "2025-06-11" RequestStatus.pending,
       mkRequest "2" "2025-06-13" RequestStatus.pending,
       mkRequest "3" "2025-07-10" RequestStatus.pending,
       mkRequest "4" "2025-06-15" RequestStatus.pending,
       mkRequest "5" "2025-06-11" RequestStatus.success]
    processedRequests := [] }

/-- The same queue with the far request at the deployed 21-day offset. -/
def demoQueue21 : QueueData :=
  { bookingRequests :=
      [mkRequest "1" "2025-06-11" RequestStatus.pending,
       mkRequest "2" "2025-06-13" RequestStatus.pending,
       mkRequest "3" "2025-07-01" RequestStatus.pending,
       mkRequest "4" "2025-06-15" RequestStatus.pending,
       mkRequest "5" "2025-06-11" RequestStatus.success]
    processedRequests := [] }

def demoSelected : List BookingRequest :=
  [mkRequest "3" "2025-07-01" RequestStatus.pending,
   mkRequest "2" "2025-06-13" RequestStatus.pending,
   mkRequest "1" "2025-06-11" RequestStatus.pending]

/-- The specification's classifier example: a snapshot whose text carries
both the pre-release banner for June 15, 2025 and the no-results message. -/
def demoSnapshot : PageSnapshot :=
  { pageText := "Tee times will become available on June 15, 2025 at 7:00 AM. Your search returned no times to be displayed"
    hasTimeSlots := false }

def slotFourPM : Slot := { time := "16:00", id := "playwright-slot-0" }

/-- An observation sequence that reports a ready page with zero slots on the
first attempt and a ready page with one slot after the reload cycle. -/
def obsReadyThenSlot : Nat → PageState × List Slot := fun i =>
  if i = 0 then (PageState.ready, [])
  else if i = 3 then (PageState.ready, [slotFourPM])
  else (PageState.loading, [])

def obsAllReadyEmpty : Nat → PageState × List Slot := fun _ => (PageState.ready, [])

/-- An observation sequence whose first 11 attempts (indices 0-10) all see
the all-booked secondary signal, after which the signal times out and the
page never leaves loading. -/
def obsElevenAllBooked : Nat → NearObs := fun i =>
  if i ≤ 10 then { api := APIResult.allBooked, state := PageState.loading, slots := [] }
  else { api := APIResult.timeout, state := PageState.loading, slots := [] }

def obsConstAllBooked : Nat → NearObs := fun _ =>
  { api := APIResult.allBooked, state := PageState.loading, slots := [] }

def demoSlots : List Slot :=
  [{ time := "11:30", id := "slot-1" },
   { time := "10:15", id := "slot-2" },
   { time := "09:45", id := "slot-3" }]

/-- An oracle under which the first two candidates conflict and the third
completes confirmation. -/
def demoOutcome : Slot → BookResult := fun s =>
  if s.id = "slot-3" then BookResult.success else BookResult.locked

def lockedOracle : Slot → BookResult := fun _ => BookResult.locked

def demoEnv : Nat → ProcEnv := fun j =>
  { throws := if j = 1 then some "boom" else none
    nowIso := "2025-06-10T11:00:05.000Z"
    dateSelected := true
    slots := demoSlots
    outcome := demoOutcome }

def demoNewQueue : QueueData :=
  (mainRun "2025-06-10" demoEnv demoQueue21).getD
    { bookingRequests := [], processedRequests := [] }

/-! ### Order facts about the JS string comparison -/

theorem strLtB_irrefl : ∀ l : List Char, strLtB l l = false
  | [] => rfl
  | a :: as => by simp [strLtB, strLtB_irrefl as]

theorem strLtB_asymm : ∀ (a b : List Char), strLtB a b = true → strLtB b a = false
  | [], [], h => by simp [strLtB] at h
  | [], _ :: _, _ => rfl
  | _ :: _, [], h => by simp [strLtB] at h
  | x :: xs, y :: ys, h => by
    simp only [strLtB] at h ⊢
    rcases Nat.lt_trichotomy x.toNat y.toNat with hlt | heq | hgt
    · simp [hlt, Nat.lt_asymm hlt]
    · simp only [heq, Nat.lt_irrefl, if_false] at h ⊢
      exact strLtB_asymm xs ys h
    · simp [hgt, Nat.lt_asymm hgt] at h

theorem strLtB_neg_trans :
    ∀ (a b c : List Char), strLtB a b = false → strLtB b c = false → strLtB a c = false
  | [], _, [], _, _ => rfl
  | _ :: _, _, [], _, _ => rfl
  | [], [], _ :: _, _, h2 => h2
  | [], _ :: _, _ :: _, h1, _ => by simp [strLtB] at h1
  | _ :: _, [], _ :: _, _, h2 => by simp [strLtB] at h2
  | x :: xs, y :: ys, z :: zs, h1, h2 => by
    simp only [strLtB] at h1 h2 ⊢
    by_cases hxy : x.toNat < y.toNat
    · simp [hxy] at h1
    · simp only [hxy, if_false] at h1
      by_cases hyz : y.toNat < z.toNat
      · simp [hyz] at h2
      · simp only [hyz, if_false] at h2
        have hxz : ¬x.toNat < z.toNat := by omega
        simp only [hxz, if_false]
        by_cases hzx : z.toNat < x.toNat
        · simp [hzx]
        · have hyx : ¬y.toNat < x.toNat := by omega
          have hzy : ¬z.toNat < y.toNat := by omega
          simp only [hyx, if_false] at h1
          simp only [hzy, if_false] at h2
          simp only [hzx, if_false]
          exact strLtB_neg_trans xs ys zs h1 h2

theorem jsLt_irrefl (s : String) : jsLt s s = false := strLtB_irrefl s.data

theorem jsLt_asymm {a b : String} (h : jsLt a b = true) : jsLt b a = false :=
  strLtB_asymm a.data b.data h

theorem jsLt_neg_trans {a b c : String} (h1 : jsLt a b = false) (h2 : jsLt b c = false) :
    jsLt a c = false :=
  strLtB_neg_trans a.data b.data c.data h1 h2

theorem jsLt_ne {a b : String} (h : jsLt a b = true) : a ≠ b := by
  intro he
  rw [he, jsLt_irrefl] at h
  exact Bool.false_ne_true h

/-! ### The stable descending sort: permutation, sortedness, stability -/

theorem insertDescByKey_perm (key : α → String) (a : α) :
    ∀ l : List α, (insertDescByKey key a l).Perm (a :: l)
  | [] => List.Perm.refl _
  | x :: xs => by
    simp only [insertDescByKey]
    split
    · exact ((insertDescByKey_perm key a xs).cons x).trans (List.Perm.swap a x xs)
    · exact List.Perm.refl _

theorem sortDescByKey_perm (key : α → String) : ∀ l : List α, (sortDescByKey key l).Perm l
  | [] => List.Perm.refl _
  | a :: l =>
    (insertDescByKey_perm key a (sortDescByKey key l)).trans
      ((sortDescByKey_perm key l).cons a)

theorem insertDescByKey_pairwise (key : α → String) (a : α) :
    ∀ {l : List α}, l.Pairwise (fun x y => jsLt (key x) (key y) = false) →
      (insertDescByKey key a l).Pairwise (fun x y => jsLt (key x) (key y) = false)
  | [], _ => by simp [insertDescByKey]
  | x :: xs, h => by
    rw [List.pairwise_cons] at h
    obtain ⟨hx, hxs⟩ := h
    simp only [insertDescByKey]
    split
    case isTrue hc =>
      rw [List.pairwise_cons]
      refine ⟨fun y hy => ?_, insertDescByKey_pairwise key a hxs⟩
      rcases List.mem_cons.mp ((insertDescByKey_perm key a xs).mem_iff.mp hy) with hya | hyxs
      · rw [hya]
        exact jsLt_asymm hc
      · exact hx y hyxs
    case isFalse hc =>
      have hax : jsLt (key a) (key x) = false := Bool.eq_false_iff.mpr hc
      rw [List.pairwise_cons]
      refine ⟨fun y hy => ?_, List.pairwise_cons.mpr ⟨hx, hxs⟩⟩
      rcases List.mem_cons.mp hy with hyx | hyxs
      · rw [hyx]; exact hax
      · exact jsLt_neg_trans hax (hx y hyxs)

theorem sortDescByKey_pairwise (key : α → String) :
    ∀ l : List α, (sortDescByKey key l).Pairwise (fun x y => jsLt (key x) (key y) = false)
  | [] => List.Pairwise.nil
  | a :: l => insertDescByKey_pairwise key a (sortDescByKey_pairwise key l)

theorem insertDescByKey_filter_eq (key : α → String) (a : α) (d : String)
    (ha : key a = d) :
    ∀ l : List α, (insertDescByKey key a l).filter (fun x => key x == d) =
      a :: l.filter (fun x => key x == d)
  | [] => by simp [insertDescByKey, List.filter, ha]
  | x :: xs => by
    simp only [insertDescByKey]
    split
    case isTrue hc =>
      have hxd : (key x == d) = false := by
        refine beq_eq_false_iff_ne.mpr fun he => ?_
        exact jsLt_ne hc (by rw [ha, he])
      simp only [List.filter, hxd]
      exact insertDescByKey_filter_eq key a d ha xs
    case isFalse hc =>
      simp [List.filter, ha]

theorem insertDescByKey_filter_ne (key : α → String) (a : α) (d : String)
    (ha : (key a == d) = false) :
    ∀ l : List α, (insertDescByKey key a l).filter (fun x => key x == d) =
      l.filter (fun x => key x == d)
  | [] => by simp [insertDescByKey, List.filter, ha]
  | x :: xs => by
    simp only [insertDescByKey]
    split
    · simp only [List.filter]
      rw [insertDescByKey_filter_ne key a d ha xs]
    · simp [List.filter, ha]

theorem sortDescByKey_filter (key : α → String) (d : String) :
    ∀ l : List α, (sortDescByKey key l).filter (fun x => key x == d) =
      l.filter (fun x => key x == d)
  | [] => rfl
  | a :: l => by
    by_cases ha : key a = d
    · show (insertDescByKey key a (sortDescByKey key l)).filter _ = _
      rw [insertDescByKey_filter_eq key a d ha, sortDescByKey_filter key d l]
      simp [List.filter, ha]
    · show (insertDescByKey key a (sortDescByKey key l)).filter _ = _
      rw [insertDescByKey_filter_ne key a d (beq_eq_false_iff_ne.mpr ha),
        sortDescByKey_filter key d l]
      simp [List.filter, beq_eq_false_iff_ne.mpr ha]

theorem insertDescByKey_map (key : α → String) (f : β → α) (a : β) :
    ∀ m : List β, insertDescByKey key (f a) (m.map f) =
      (insertDescByKey (fun x => key (f x)) a m).map f
  | [] => rfl
  | x :: xs => by
    simp only [List.map, insertDescByKey]
    split
    · rw [insertDescByKey_map key f a xs]
      rfl
    · rfl

theorem sortDescByKey_map (key : α → String) (f : β → α) :
    ∀ m : List β, sortDescByKey key (m.map f) =
      (sortDescByKey (fun x => key (f x)) m).map f
  | [] => rfl
  | b :: m => by
    show insertDescByKey key (f b) (sortDescByKey key (m.map f)) = _
    rw [sortDescByKey_map key f m, insertDescByKey_map key f b]
    rfl

end Golf

namespace Golf

/-! ### Enumeration lemmas linking the in-place queue mutation to the
value-level filter -/

theorem enumFrom_filter_map_snd (p : α → Bool) :
    ∀ (n : Nat) (l : List α),
      ((List.enumFrom n l).filter (fun x => p x.2)).map (fun x => x.2) = l.filter p
  | _, [] => rfl
  | n, a :: l => by
    simp only [List.enumFrom, List.filter]
    cases hp : p a <;>
      simp [hp, enumFrom_filter_map_snd p (n + 1) l]

theorem enumFrom_mutate_filter (elig isPend : α → Bool) (proc : Nat → α → α)
    (hproc : ∀ j a, elig a = true → isPend (proc j a) = false) :
    ∀ (n : Nat) (l : List α),
      (((List.enumFrom n l).map
          (fun p => if elig p.2 then proc p.1 p.2 else p.2)).filter isPend) =
        l.filter (fun a => isPend a && !(elig a))
  | _, [] => rfl
  | n, a :: l => by
    simp only [List.enumFrom, List.map, List.filter]
    by_cases he : elig a = true
    · simp only [he, if_true, hproc n a he, Bool.not_true, Bool.and_false]
      exact enumFrom_mutate_filter elig isPend proc hproc (n + 1) l
    · have he' : elig a = false := Bool.eq_false_iff.mpr he
      simp only [he', if_false, Bool.not_false, Bool.and_true]
      cases hp : isPend a <;>
        simp [hp, enumFrom_mutate_filter elig isPend proc hproc (n + 1) l]

theorem selection_eq (today far three : String) (bs : List BookingRequest) :
    sortDescByKey (fun r => r.playDate) (bs.filter (eligibleRequest today far three)) =
      (sortDescByKey (fun p => p.2.playDate)
        (bs.enum.filter (fun p => eligibleRequest today far three p.2))).map
        (fun p => p.2) := by
  rw [← enumFrom_filter_map_snd (eligibleRequest today far three) 0 bs]
  exact sortDescByKey_map (fun r : BookingRequest => r.playDate)
    (fun p : Nat × BookingRequest => p.2) _

/-! ### Acquisition protocol lemmas -/

theorem attemptBookingGo_fst (outcome : Slot → BookResult) :
    ∀ (slots : List Slot) (acc : String),
      (attemptBookingGo outcome slots acc).1 =
        slots.find? (fun s => outcome s == BookResult.success)
  | [], _ => rfl
  | s :: rest, acc => by
    simp only [attemptBookingGo, List.find?]
    cases h : outcome s
    · simp [h, show (BookResult.success == BookResult.success) = true from rfl]
    · simp [h, attemptBookingGo_fst outcome rest,
        show (BookResult.locked == BookResult.success) = false from rfl]
    · simp [h, attemptBookingGo_fst outcome rest,
        show (BookResult.error == BookResult.success) = false from rfl]

theorem attemptBookingGo_snd (outcome : Slot → BookResult) :
    ∀ (slots : List Slot) (acc : String),
      (∀ s ∈ slots, outcome s ≠ BookResult.success) →
      (attemptBookingGo outcome slots acc).2 =
        (match slots.getLast? with
         | none => acc
         | some slot =>
           match outcome slot with
           | BookResult.locked => lockedMessage
           | _ => bookingFailedMessage)
  | [], _, _ => rfl
  | s :: rest, acc, h => by
    have hs := h s (List.mem_cons_self s rest)
    match rest with
    | [] =>
      cases ho : outcome s
      · exact absurd ho hs
      · simp [attemptBookingGo, ho, List.getLast?]
      · simp [attemptBookingGo, ho, List.getLast?]
    | r :: rs =>
      have hrest : ∀ x ∈ r :: rs, outcome x ≠ BookResult.success :=
        fun x hx => h x (List.mem_cons_of_mem s hx)
      cases ho : outcome s
      · exact absurd ho hs
      · simp only [attemptBookingGo, ho, List.getLast?_cons_cons]
        exact attemptBookingGo_snd outcome (r :: rs) lockedMessage hrest
      · simp only [attemptBookingGo, ho, List.getLast?_cons_cons]
        exact attemptBookingGo_snd outcome (r :: rs) bookingFailedMessage hrest

theorem attemptedSlots_front (outcome : Slot → BookResult) :
    ∀ slots : List Slot, ∃ t, attemptedSlots outcome slots ++ t = slots
  | [] => ⟨[], rfl⟩
  | s :: rest => by
    simp only [attemptedSlots]
    cases ho : outcome s
    · exact ⟨rest, rfl⟩
    · obtain ⟨t, ht⟩ := attemptedSlots_front outcome rest
      exact ⟨t, by simp [ht]⟩
    · obtain ⟨t, ht⟩ := attemptedSlots_front outcome rest
      exact ⟨t, by simp [ht]⟩

/-! ### Per-request processing lemmas -/

theorem process30DayRequest_status (env : ProcEnv) (r : BookingRequest) :
    (process30DayRequest env r).status = RequestStatus.success ∨
    (process30DayRequest env r).status = RequestStatus.failed ∨
    (process30DayRequest env r).status = RequestStatus.error := by
  unfold process30DayRequest
  cases env.throws
  · simp only []
    split
    · simp
    · split
      · simp
      · rcases hb : attemptBooking env.outcome env.slots with ⟨os, msg⟩
        cases os <;> simp [hb]
  · simp

theorem process3DayRequest_status (env : ProcEnv) (r : BookingRequest) :
    (process3DayRequest env r).status = RequestStatus.success ∨
    (process3DayRequest env r).status = RequestStatus.failed ∨
    (process3DayRequest env r).status = RequestStatus.error := by
  unfold process3DayRequest
  cases env.throws
  · simp only []
    split
    · simp
    · rcases hb : attemptBooking env.outcome env.slots with ⟨os, msg⟩
      cases os <;> simp [hb]
  · simp

theorem processRequest_status (env : ProcEnv) (b : Bool) (r : BookingRequest) :
    (processRequest env b r).2.status = RequestStatus.success ∨
    (processRequest env b r).2.status = RequestStatus.failed ∨
    (processRequest env b r).2.status = RequestStatus.error := by
  cases b <;>
    simp only [processRequest, Bool.not_false, Bool.not_true, if_true, if_false]
  · exact process3DayRequest_status env r
  · exact process30DayRequest_status env r

theorem processRequest_not_pending (env : ProcEnv) (b : Bool) (r : BookingRequest) :
    ((processRequest env b r).2.status == RequestStatus.pending) = false := by
  rcases processRequest_status env b r with h | h | h <;> simp [h]

theorem process30DayRequest_id (env : ProcEnv) (r : BookingRequest) :
    (process30DayRequest env r).id = r.id := by
  unfold process30DayRequest
  cases env.throws
  · simp only []
    split
    · rfl
    · split
      · rfl
      · rcases hb : attemptBooking env.outcome env.slots with ⟨os, msg⟩
        cases os <;> simp [hb]
  · rfl

theorem process3DayRequest_id (env : ProcEnv) (r : BookingRequest) :
    (process3DayRequest env r).id = r.id := by
  unfold process3DayRequest
  cases env.throws
  · simp only []
    split
    · rfl
    · rcases hb : attemptBooking env.outcome env.slots with ⟨os, msg⟩
      cases os <;> simp [hb]
  · rfl

theorem processRequest_id (env : ProcEnv) (b : Bool) (r : BookingRequest) :
    (processRequest env b r).2.id = r.id := by
  cases b <;>
    simp only [processRequest, Bool.not_false, Bool.not_true, if_true, if_false]
  · exact process3DayRequest_id env r
  · exact process30DayRequest_id env r

theorem processRequest_throws (env : ProcEnv) (b : Bool) (r : BookingRequest)
    (msg : String) (h : env.throws = some msg) :
    (processRequest env b r).2.status = RequestStatus.error := by
  cases b <;>
    simp [processRequest, process3DayRequest, process30DayRequest, h]

end Golf

namespace Golf

/-! ### Near-horizon loop stepping lemmas -/

theorem find3Go_step (observe : Nat → NearObs) (fuel attempt : Nat)
    (h1 : ¬((observe attempt).api = APIResult.allBooked ∧ attempt > 10))
    (h2 : (observe attempt).state = PageState.ready → (observe attempt).slots = []) :
    find3Go observe (fuel + 1) attempt = find3Go observe fuel (attempt + 1) := by
  simp only [find3Go]
  rw [if_neg h1]
  cases hs : (observe attempt).state
  · rw [h2 hs]
    rfl
  · rfl
  · rfl
  · rfl

theorem find3Go_stop (observe : Nat → NearObs) (fuel attempt : Nat)
    (hA : (observe attempt).api = APIResult.allBooked) (hgt : attempt > 10) :
    find3Go observe (fuel + 1) attempt = ⟨[], attempt, NearStop.apiAllBooked⟩ := by
  simp only [find3Go]
  rw [if_pos ⟨hA, hgt⟩]

theorem find3Go_chain (observe : Nat → NearObs)
    (hapi : ∀ i, i ≤ 11 → (observe i).api = APIResult.allBooked)
    (hslots : ∀ i, i ≤ 10 → (observe i).state = PageState.ready → (observe i).slots = []) :
    ∀ (d j : Nat), j + d = 11 →
      find3Go observe (20 + d) j = ⟨[], 11, NearStop.apiAllBooked⟩
  | 0, j, hj => by
    have hj11 : j = 11 := by omega
    subst hj11
    exact find3Go_stop observe 19 11 (hapi 11 (by omega)) (by omega)
  | d + 1, j, hj => by
    have h20 : 20 + (d + 1) = (20 + d) + 1 := by omega
    rw [h20, find3Go_step observe (20 + d) j
      (by rintro ⟨_, hgt⟩; omega) (hslots j (by omega))]
    exact find3Go_chain observe hapi hslots d (j + 1) (by omega)

end Golf

namespace Golf

/-! ### C3: the dual-channel availability detector -/

theorem checkApi_eq (tr : TimeRange) (ar : ApiResponse) :
    checkApiForAvailability tr ar =
      (if (ar.teeSheet.filter (slotInRange tr)).isEmpty then ApiAvailability.notReleased
       else if !((ar.teeSheet.filter (slotInRange tr)).filter
           (fun slot => slot.availPlayers == 4)).isEmpty then ApiAvailability.available
       else ApiAvailability.allBooked) := by
  simp only [checkApiForAvailability]
  by_cases hE : (ar.teeSheet.filter (slotInRange tr)).isEmpty = true
  · rw [if_pos hE, if_pos hE]
  · rw [if_neg hE, if_neg hE]
    by_cases hA : (!((ar.teeSheet.filter (slotInRange tr)).filter
        (fun slot => slot.availPlayers == 4)).isEmpty) = true
    · rw [if_pos hA, if_pos hA]
    · rw [if_neg hA, if_neg hA]
      exact ite_self _

theorem inRangeEmpty_iff (tr : TimeRange) (ar : ApiResponse) :
    (ar.teeSheet.filter (slotInRange tr)).isEmpty = true ↔
      ∀ slot ∈ ar.teeSheet, slotInRange tr slot = false := by
  rw [List.isEmpty_iff, List.filter_eq_nil_iff]
  simp

theorem availNonempty_iff (tr : TimeRange) (ar : ApiResponse) :
    (!((ar.teeSheet.filter (slotInRange tr)).filter
        (fun slot => slot.availPlayers == 4)).isEmpty) = true ↔
      ∃ slot ∈ ar.teeSheet, slotInRange tr slot = true ∧ slot.availPlayers = 4 := by
  rw [Bool.not_eq_true', Bool.eq_false_iff]
  constructor
  · intro h
    have hne : (ar.teeSheet.filter (slotInRange tr)).filter
        (fun slot => slot.availPlayers == 4) ≠ [] :=
      fun hnil => h (by rw [hnil]; rfl)
    rcases List.exists_mem_of_ne_nil _ hne with ⟨s, hs⟩
    rcases List.mem_filter.mp hs with ⟨hs1, hs2⟩
    rcases List.mem_filter.mp hs1 with ⟨hs3, hs4⟩
    exact ⟨s, hs3, hs4, by simpa using hs2⟩
  · rintro ⟨s, hmem, hin, h4⟩ habs
    have hmem2 : s ∈ (ar.teeSheet.filter (slotInRange tr)).filter
        (fun slot => slot.availPlayers == 4) :=
      List.mem_filter.mpr ⟨List.mem_filter.mpr ⟨hmem, hin⟩, by simp [h4]⟩
    rw [List.isEmpty_iff.mp habs] at hmem2
    exact absurd hmem2 (List.not_mem_nil s)

/-- C3: for every requested time window and structured payload, the detector
reports available iff some in-window slot (endpoints included, times compared
as fractional hours) has capacity exactly 4; not-released iff no slot lies in
the window; and all-booked iff in-window slots exist but none has capacity 4,
which covers both the all-zero case and partial capacities 1-3. -/
theorem c3_checkApiForAvailability_spec (tr : TimeRange) (ar : ApiResponse) :
    (checkApiForAvailability tr ar = ApiAvailability.available ↔
      ∃ slot ∈ ar.teeSheet, slotInRange tr slot = true ∧ slot.availPlayers = 4)
    ∧ (checkApiForAvailability tr ar = ApiAvailability.notReleased ↔
      ∀ slot ∈ ar.teeSheet, slotInRange tr slot = false)
    ∧ (checkApiForAvailability tr ar = ApiAvailability.allBooked ↔
      ((∃ slot ∈ ar.teeSheet, slotInRange tr slot = true) ∧
        ∀ slot ∈ ar.teeSheet, slotInRange tr slot = true → slot.availPlayers ≠ 4)) := by
  rw [checkApi_eq]
  by_cases hE : (ar.teeSheet.filter (slotInRange tr)).isEmpty = true
  · rw [if_pos hE]
    refine ⟨⟨fun h => absurd h (by decide), ?_⟩, ⟨fun _ => (inRangeEmpty_iff tr ar).mp hE,
      fun _ => rfl⟩, ⟨fun h => absurd h (by decide), ?_⟩⟩
    · rintro ⟨s, hmem, hin, _⟩
      exact absurd hin (by simp [(inRangeEmpty_iff tr ar).mp hE s hmem])
    · rintro ⟨⟨s, hmem, hin⟩, _⟩
      exact absurd hin (by simp [(inRangeEmpty_iff tr ar).mp hE s hmem])
  · rw [if_neg hE]
    have hnr : ¬(∀ slot ∈ ar.teeSheet, slotInRange tr slot = false) :=
      fun hc => hE ((inRangeEmpty_iff tr ar).mpr hc)
    have hsome : ∃ slot ∈ ar.teeSheet, slotInRange tr slot = true := by
      have hne : ar.teeSheet.filter (slotInRange tr) ≠ [] :=
        fun hnil => hE (by rw [hnil]; rfl)
      rcases List.exists_mem_of_ne_nil _ hne with ⟨s, hs⟩
      rcases List.mem_filter.mp hs with ⟨hs1, hs2⟩
      exact ⟨s, hs1, hs2⟩
    by_cases hA : (!((ar.teeSheet.filter (slotInRange tr)).filter
        (fun slot => slot.availPlayers == 4)).isEmpty) = true
    · rw [if_pos hA]
      refine ⟨⟨fun _ => (availNonempty_iff tr ar).mp hA, fun _ => rfl⟩,
        ⟨fun h => absurd h (by decide), fun hc => absurd hc hnr⟩,
        ⟨fun h => absurd h (by decide), ?_⟩⟩
      rintro ⟨_, hall⟩
      rcases (availNonempty_iff tr ar).mp hA with ⟨s, hmem, hin, h4⟩
      exact absurd h4 (hall s hmem hin)
    · rw [if_neg hA]
      refine ⟨⟨fun h => absurd h (by decide), fun hx => absurd ((availNonempty_iff tr ar).mpr hx) hA⟩,
        ⟨fun h => absurd h (by decide), fun hc => absurd hc hnr⟩,
        ⟨fun _ => ⟨hsome, fun s hmem hin h4 => hA ((availNonempty_iff tr ar).mpr ⟨s, hmem, hin, h4⟩)⟩,
          fun _ => rfl⟩⟩

end Golf

namespace Golf

/-! ### C4: the page state classifier -/

/-- C4: the classifier checks in priority order: the too-early release
pattern for the target date wins even when the no-results message is also
present; otherwise the no-results message; otherwise the presence of a slot
time element gives ready; otherwise loading. -/
theorem c4_checkPageState_spec (snapshot : PageSnapshot) (playDate : String) :
    (checkPageState snapshot playDate = PageState.tooEarly ↔
      includesStr snapshot.pageText (tooEarlyPattern playDate) = true)
    ∧ (checkPageState snapshot playDate = PageState.noResults ↔
      (includesStr snapshot.pageText (tooEarlyPattern playDate) = false ∧
        includesStr snapshot.pageText noTimesMessage = true))
    ∧ (checkPageState snapshot playDate = PageState.ready ↔
      (includesStr snapshot.pageText (tooEarlyPattern playDate) = false ∧
        includesStr snapshot.pageText noTimesMessage = false ∧
        snapshot.hasTimeSlots = true))
    ∧ (checkPageState snapshot playDate = PageState.loading ↔
      (includesStr snapshot.pageText (tooEarlyPattern playDate) = false ∧
        includesStr snapshot.pageText noTimesMessage = false ∧
        snapshot.hasTimeSlots = false)) := by
  unfold checkPageState
  cases h1 : includesStr snapshot.pageText (tooEarlyPattern playDate) <;>
    cases h2 : includesStr snapshot.pageText noTimesMessage <;>
      cases h3 : snapshot.hasTimeSlots <;>
        simp [h1, h2, h3]



theorem c4_witness :
    includesStr demoSnapshot.pageText (tooEarlyPattern "2025-06-15") = true ∧
    includesStr demoSnapshot.pageText noTimesMessage = true ∧
    checkPageState demoSnapshot "2025-06-15" = PageState.tooEarly :=
  ⟨by decide, by decide,
    ((c4_checkPageState_spec demoSnapshot "2025-06-15").1).mpr (by decide)⟩

/-! ### C5: far-horizon policy on a ready page with zero slots -/





/-- C5 counterexample: the far-horizon policy observes ready with zero slots
on attempt 0, yet it does not return empty — it reloads the frame (one
reload recorded) and returns the slot discovered after the reload. -/
theorem c5_counterexample :
    obsReadyThenSlot 0 = (PageState.ready, []) ∧
    findAvailableSlots30Day obsReadyThenSlot 30 = { slots := [slotFourPM], reloads := 1 } ∧
    ({ slots := [slotFourPM], reloads := 1 } : FarHorizonResult).slots ≠ [] ∧
    ({ slots := [slotFourPM], reloads := 1 } : FarHorizonResult).reloads ≠ 0 :=
  ⟨rfl, by decide, by decide, by decide⟩

/-- C5 amended: observing ready with zero slots makes the far-horizon policy
wait, reload the view and retry, consuming three attempt counts per cycle;
when every observation is ready with zero slots it returns empty only after
exhausting the attempt budget, having reloaded 11 times (attempts 0, 3, ...,
30 of the cap 30). -/
theorem c5_ready_empty_reloads (observe : Nat → PageState × List Slot)
    (h : ∀ i, observe i = (PageState.ready, ([] : List Slot))) :
    findAvailableSlots30Day observe 30 = { slots := [], reloads := 11 } := by
  have hfun : observe = fun _ => (PageState.ready, ([] : List Slot)) := funext h
  subst hfun
  rfl



theorem c5_witness :
    findAvailableSlots30Day obsAllReadyEmpty 30 = { slots := [], reloads := 11 } :=
  c5_ready_empty_reloads obsAllReadyEmpty (fun _ => rfl)

/-! ### C6: near-horizon early stop on all-booked -/



/-- C6 counterexample: 11 consecutive attempts (indices 0-10) observe
all-booked, yet the policy does not stop early — the guard requires the
attempt index itself to exceed 10, so the run continues to the attempt cap
and returns empty by exhaustion after all 31 attempts. -/
theorem c6_counterexample :
    (∀ i, i < 11 → (obsElevenAllBooked i).api = APIResult.allBooked) ∧
    findAvailableSlots3Day obsElevenAllBooked 30 =
      { slots := [], stoppedAt := 31, reason := NearStop.exhausted } :=
  ⟨by decide, by decide⟩

/-- C6 amended: an all-booked observation at an attempt index above 10 stops
the policy at that attempt; in particular when the signal is all-booked
through attempt index 11 (twelve consecutive observations) and no earlier
attempt finds a ready page with slots, the policy returns empty at attempt
11, before its attempt cap of 30. -/
theorem c6_all_booked_early_stop (observe : Nat → NearObs)
    (hapi : ∀ i, i ≤ 11 → (observe i).api = APIResult.allBooked)
    (hslots : ∀ i, i ≤ 10 → (observe i).state = PageState.ready → (observe i).slots = []) :
    findAvailableSlots3Day observe 30 =
      { slots := [], stoppedAt := 11, reason := NearStop.apiAllBooked } ∧ 11 < 30 := by
  refine ⟨?_, by omega⟩
  show find3Go observe 31 0 = _
  exact find3Go_chain observe hapi hslots 11 0 (by omega)



theorem c6_witness :
    findAvailableSlots3Day obsConstAllBooked 30 =
      { slots := [], stoppedAt := 11, reason := NearStop.apiAllBooked } ∧ 11 < 30 :=
  c6_all_booked_early_stop obsConstAllBooked (fun _ _ => rfl) (fun _ _ _ => rfl)

end Golf

namespace Golf

/-! ### C8: the end-of-run queue invariant -/

/-- C8: after a normal run, the requests selected by the eligibility filter
head the processed collection, each with a terminal status (success, failed
or error) and matching ids in selection order; the old processed collection
follows unchanged; the pending collection retains exactly the pending
requests that were not eligible; an empty selection leaves the queue
untouched; and a collaborator exception during one request's processing
yields status error for that request (the run itself still completes). -/
theorem c8_mainRun_invariant (today : String) (env : Nat → ProcEnv) (q : QueueData)
    (far three : String) (sel : List BookingRequest) (newQ : QueueData)
    (h21 : addDaysToISODate today 21 = some far)
    (h3 : addDaysToISODate today 3 = some three)
    (hsel : filterTodayRequests today q = some sel)
    (hrun : mainRun today env q = some newQ) :
    (∀ r ∈ newQ.processedRequests.take sel.length,
        r.status = RequestStatus.success ∨ r.status = RequestStatus.failed ∨
          r.status = RequestStatus.error)
    ∧ (newQ.processedRequests.take sel.length).map (fun r => r.id) =
        sel.map (fun r => r.id)
    ∧ newQ.processedRequests.drop sel.length = q.processedRequests
    ∧ (sel ≠ [] → newQ.bookingRequests = q.bookingRequests.filter (fun r =>
        (r.status == RequestStatus.pending) && !(eligibleRequest today far three r)))
    ∧ (sel = [] → newQ = q)
    ∧ (∀ (e : ProcEnv) (b : Bool) (r : BookingRequest) (msg : String),
        e.throws = some msg → (processRequest e b r).2.status = RequestStatus.error) := by
  simp only [filterTodayRequests, h21, h3] at hsel
  have hsel' : sortDescByKey (fun r => r.playDate)
      (q.bookingRequests.filter (eligibleRequest today far three)) = sel :=
    Option.some.inj hsel
  rw [selection_eq today far three q.bookingRequests] at hsel'
  simp only [mainRun, h21, h3] at hrun
  cases hs : sortDescByKey (fun p : Nat × BookingRequest => p.2.playDate)
      (q.bookingRequests.enum.filter
        (fun p => eligibleRequest today far three p.2)) with
  | nil =>
    rw [hs] at hsel' hrun
    have hq : q = newQ := Option.some.inj hrun
    have hsen : sel = [] := hsel'.symm
    subst hq
    subst hsen
    exact ⟨by simp, by simp, by simp, fun hne => absurd rfl hne, fun _ => rfl,
      fun e b r msg h => processRequest_throws e b r msg h⟩
  | cons first rest =>
    rw [hs] at hsel' hrun
    have hnew : _ = newQ := Option.some.inj hrun
    subst hnew
    have hlen : ((first :: rest).map
        (fun p => (processRequest (env p.1) (p.1 == first.1) p.2).2)).length =
        sel.length := by
      rw [← hsel']
      simp
    refine ⟨?_, ?_, ?_, ?_, ?_,
      fun e b r msg h => processRequest_throws e b r msg h⟩
    · intro r hr
      rw [← hlen, List.take_left] at hr
      rcases List.mem_map.mp hr with ⟨p, _, hp⟩
      rw [← hp]
      exact processRequest_status (env p.1) (p.1 == first.1) p.2
    · rw [← hlen, List.take_left, ← hsel', List.map_map, List.map_map]
      refine List.map_congr_left fun p _ => ?_
      exact processRequest_id (env p.1) (p.1 == first.1) p.2
    · rw [← hlen, List.drop_left]
    · intro _
      exact enumFrom_mutate_filter (eligibleRequest today far three)
        (fun r => r.status == RequestStatus.pending)
        (fun j r => (processRequest (env j) (j == first.1) r).2)
        (fun j a _ => processRequest_not_pending (env j) (j == first.1) a)
        0 q.bookingRequests
    · intro hse
      rw [hse] at hsel'
      exact absurd hsel' (by simp)

end Golf

namespace Golf

/-! ### C7: the acquisition attempt protocol -/

/-- C7: the protocol visits candidates in the given list order, each at most
once (the visited sequence is a front segment of the candidate list); it
returns the first candidate whose booking succeeds (a locked outcome is
non-fatal and advances to the next candidate); and when no candidate
succeeds, the reported failure reason is that of the last attempted
candidate. -/
theorem c7_attemptBooking_spec (outcome : Slot → BookResult) (slots : List Slot) :
    (∃ t, attemptedSlots outcome slots ++ t = slots)
    ∧ (attemptBooking outcome slots).1 =
        slots.find? (fun s => outcome s == BookResult.success)
    ∧ ((∀ s ∈ slots, outcome s ≠ BookResult.success) →
        (attemptBooking outcome slots).2 = lastFailureMessage outcome slots) := by
  refine ⟨attemptedSlots_front outcome slots,
    attemptBookingGo_fst outcome slots "Unknown error", fun h => ?_⟩
  show (attemptBookingGo outcome slots "Unknown error").2 = _
  rw [attemptBookingGo_snd outcome slots "Unknown error" h]
  unfold lastFailureMessage
  cases slots.getLast? <;> rfl







theorem c7_witness :
    attemptBooking demoOutcome demoSlots =
      (some { time := "09:45", id := "slot-3" }, lockedMessage) ∧
    (attemptBooking lockedOracle demoSlots).2 =
      lastFailureMessage lockedOracle demoSlots :=
  ⟨by decide, (c7_attemptBooking_spec lockedOracle demoSlots).2.2 (by decide)⟩

/-! ### C9: the release-instant wait under a primary-path failure -/

/-- C9 (code bug): whenever the primary offset computation fails, the
promise returned by sleepUntilTimeInZone is already rejected with the
primary error — `reject(error)` runs inside calculateDelay's catch before
the fallback — so even a successful fallback computation cannot resolve it,
contradicting the documented fall-back-then-resolve behaviour. -/
theorem c9_sleepUntil_rejects_despite_fallback (e : String) (d : Nat) :
    sleepUntilTimeInZone (Except.error e) (Except.ok d) =
      some (PromiseSettle.rejectedWith e) ∧
    sleepUntilTimeInZone (Except.error e) (Except.ok d) ≠
      some (PromiseSettle.resolvedAfter d) :=
  ⟨rfl, by simp [sleepUntilTimeInZone, settleOnce]⟩

/-! ### C10: policy dispatch ignores the play date -/

/-- C10: processRequest runs the near-horizon handler iff the request is not
the first of the run, independent of the request itself (in particular of
whether its playDate lies in the near-horizon window or at the far-horizon
release date). -/
theorem c10_processRequest_policy (env : ProcEnv) (isFirstRequest : Bool)
    (request : BookingRequest) :
    ((processRequest env isFirstRequest request).1 = RetryPolicy.nearHorizon ↔
      isFirstRequest = false)
    ∧ ((processRequest env isFirstRequest request).1 = RetryPolicy.farHorizon ↔
      isFirstRequest = true)
    ∧ ∀ other : BookingRequest,
        (processRequest env isFirstRequest other).1 =
          (processRequest env isFirstRequest request).1 := by
  cases isFirstRequest <;> simp [processRequest]

end Golf

namespace Golf





theorem c8_witness :
    (∀ r ∈ demoNewQueue.processedRequests.take demoSelected.length,
        r.status = RequestStatus.success ∨ r.status = RequestStatus.failed ∨
          r.status = RequestStatus.error)
    ∧ (demoNewQueue.processedRequests.take demoSelected.length).map (fun r => r.id) =
        demoSelected.map (fun r => r.id)
    ∧ demoNewQueue.processedRequests.drop demoSelected.length =
        demoQueue21.processedRequests
    ∧ (demoSelected ≠ [] → demoNewQueue.bookingRequests =
        demoQueue21.bookingRequests.filter (fun r =>
          (r.status == RequestStatus.pending) &&
            !(eligibleRequest "2025-06-10" "2025-07-01" "2025-06-13" r)))
    ∧ (demoSelected = [] → demoNewQueue = demoQueue21)
    ∧ (∀ (e : ProcEnv) (b : Bool) (r : BookingRequest) (msg : String),
        e.throws = some msg → (processRequest e b r).2.status = RequestStatus.error) :=
  c8_mainRun_invariant "2025-06-10" demoEnv demoQueue21 "2025-07-01" "2025-06-13"
    demoSelected demoNewQueue (by decide) (by decide) (by decide) (by decide)

end Golf

namespace Golf

/-! ### C1: the eligibility filter -/

theorem eligibleRequest_eq_claim (today far three : String) (r : BookingRequest) :
    eligibleRequest today far three r =
      (decide (r.status = RequestStatus.pending) &&
        (r.playDate == far || (jsLe today r.playDate && jsLe r.playDate three))) := by
  unfold eligibleRequest
  cases r.status <;> simp

/-- C1: for every queue snapshot and every valid value of today (the two
horizon boundaries resolve, as they do for every real date), the filter
selects exactly the pending requests whose playDate equals today + 21 days
(the deployed release horizon) or lies in [today, today + 3 days], sorted by
playDate descending, with ties kept in original order (the selected-list
filter at each date equals the unsorted filter at that date). -/
theorem c1_filterTodayRequests_spec (today : String) (q : QueueData)
    (far three : String) (res : List BookingRequest)
    (h21 : addDaysToISODate today 21 = some far)
    (h3 : addDaysToISODate today 3 = some three)
    (hres : filterTodayRequests today q = some res) :
    res.Perm (q.bookingRequests.filter (fun r =>
        decide (r.status = RequestStatus.pending) &&
          (r.playDate == far || (jsLe today r.playDate && jsLe r.playDate three))))
    ∧ res.Pairwise (fun a b => jsLt a.playDate b.playDate = false)
    ∧ ∀ d, res.filter (fun r => r.playDate == d) =
        (q.bookingRequests.filter (fun r =>
          decide (r.status = RequestStatus.pending) &&
            (r.playDate == far ||
              (jsLe today r.playDate && jsLe r.playDate three)))).filter
          (fun r => r.playDate == d) := by
  unfold filterTodayRequests at hres
  rw [h21, h3] at hres
  have hres' : sortDescByKey (fun r => r.playDate)
      (q.bookingRequests.filter (eligibleRequest today far three)) = res :=
    Option.some.inj hres
  have hpred : q.bookingRequests.filter (eligibleRequest today far three) =
      q.bookingRequests.filter (fun r =>
        decide (r.status = RequestStatus.pending) &&
          (r.playDate == far || (jsLe today r.playDate && jsLe r.playDate three))) :=
    List.filter_congr (fun r _ => eligibleRequest_eq_claim today far three r)
  subst hres'
  rw [← hpred]
  exact ⟨sortDescByKey_perm _ _, sortDescByKey_pairwise _ _,
    fun d => sortDescByKey_filter _ d _⟩

theorem c1_witness :
    addDaysToISODate "2025-06-10" 21 = some "2025-07-01" ∧
    addDaysToISODate "2025-06-10" 3 = some "2025-06-13" ∧
    filterTodayRequests "2025-06-10" demoQueue21 = some demoSelected ∧
    (demoSelected.Perm (demoQueue21.bookingRequests.filter (fun r =>
        decide (r.status = RequestStatus.pending) &&
          (r.playDate == "2025-07-01" ||
            (jsLe "2025-06-10" r.playDate && jsLe r.playDate "2025-06-13"))))
      ∧ demoSelected.Pairwise (fun a b => jsLt a.playDate b.playDate = false)
      ∧ ∀ d, demoSelected.filter (fun r => r.playDate == d) =
          (demoQueue21.bookingRequests.filter (fun r =>
            decide (r.status = RequestStatus.pending) &&
              (r.playDate == "2025-07-01" ||
                (jsLe "2025-06-10" r.playDate && jsLe r.playDate "2025-06-13")))).filter
            (fun r => r.playDate == d)) :=
  ⟨by decide, by decide, by decide,
    c1_filterTodayRequests_spec "2025-06-10" demoQueue21 "2025-07-01" "2025-06-13"
      demoSelected (by decide) (by decide) (by decide)⟩

/-! ### C2: the concrete eligibility example -/

/-- C2 counterexample: on the specification's example queue the code selects
only the 1- and 3-day requests — the deployed horizon is 21 days, so the
request at 2025-07-10 (30 days out) is not eligible and the claimed
three-element selection is wrong. -/
theorem c2_counterexample :
    Option.map (fun l => l.map (fun r => r.playDate))
        (filterTodayRequests "2025-06-10" demoQueue30) =
      some ["2025-06-13", "2025-06-11"] ∧
    (some ["2025-06-13", "2025-06-11"] : Option (List String)) ≠
      some ["2025-07-10", "2025-06-13", "2025-06-11"] :=
  ⟨by decide, by decide⟩

/-- C2 amended: for today = 2025-06-10 the code (release horizon 21 days)
selects ["2025-06-13", "2025-06-11"] from the example queue; moving the far
request to 2025-07-01 (today + 21) makes it eligible and selected first. -/
theorem c2_amended_selection :
    Option.map (fun l => l.map (fun r => r.playDate))
        (filterTodayRequests "2025-06-10" demoQueue30) =
      some ["2025-06-13", "2025-06-11"] ∧
    Option.map (fun l => l.map (fun r => r.playDate))
        (filterTodayRequests "2025-06-10" demoQueue21) =
      some ["2025-07-01", "2025-06-13", "2025-06-11"] :=
  ⟨by decide, by decide⟩

end Golf
